import Mathlib

/-!
Verification of the Snap-Color pixel-processing pipeline.

This file is a shallow embedding of the image-processing functions of the
repository (`rgbToHsl`, `hslToRgb`, `getMixerAdjustment`, `applyAdjustments`,
`calculateMaskAlpha`, `processImage`) together with proofs of the spec claims
about them.

Modelling conventions:
* JavaScript numbers are modelled as exact rationals (`ℚ`).  All arithmetic
  in the source is plain field arithmetic except the calls into `Math.pow`,
  `Math.exp`, `Math.sin`, `Math.cos` and the constant `Math.PI`; those
  transcendental primitives are abstracted into a `JsMath` record that the
  embedded functions take as a parameter.  Theorems that depend on a value of
  one of these primitives state the defining fact they use as a hypothesis
  (e.g. `pow2 0 = 1`, which `Math.pow(2, 0) = 1` guarantees exactly).
* `Math.round` is `⌊x + 1/2⌋` (JavaScript rounds half toward +∞), modelled
  by `jsRound` on `ℚ` with values in `ℤ`.
* Pixel buffers (`Uint8ClampedArray` inside `ImageData`) are modelled as
  `List ℚ` of RGBA components in flat row-major order.  The byte quantization
  performed by `Uint8ClampedArray` stores is abstracted away: written values
  are kept as exact rationals after the 0..255 clamp.  The claims proved here
  (alpha passthrough, clamping, stage identities) are insensitive to that
  quantization.
* JavaScript reads past the end of a typed array yield `undefined` (and `NaN`
  downstream).  The total model reads with `List.getD _ 0`; the only place an
  out-of-range read can occur is the LUT stage, and the theorems about it
  concern only the index bound and the skip branch, never the value read out
  of range.
* The `lutId` and legacy `skin*` fields of `EditSettings`, and the `id`,
  `name`, `radius` and `bitmap*` fields of `Mask` and `Lut`, are not read by
  `processImage` and are omitted from the embedded records.
-/

/-- Abstraction of the transcendental parts of the JavaScript `Math` object
used by the pipeline: `pow2 e` stands for `Math.pow(2, e)`, `exp` for
`Math.exp`, `sin`/`cos` for `Math.sin`/`Math.cos` and `pi` for `Math.PI`. -/
structure JsMath where
  pow2 : ℚ → ℚ
  exp : ℚ → ℚ
  sin : ℚ → ℚ
  cos : ℚ → ℚ
  pi : ℚ

/-- `const clamp = (value) => Math.max(0, Math.min(255, value));` -/
def clamp (value : ℚ) : ℚ := max 0 (min 255 value)

/-- Maximum of the three (normalized) channels, `Math.max(r, g, b)`. -/
def rgbMax (r g b : ℚ) : ℚ := max r (max g b)

/-- Minimum of the three (normalized) channels, `Math.min(r, g, b)`. -/
def rgbMin (r g b : ℚ) : ℚ := min r (min g b)

/-- The lightness `l = (max + min) / 2` computed by `rgbToHsl` on normalized
channels. -/
def hslLum (r g b : ℚ) : ℚ := (rgbMax r g b + rgbMin r g b) / 2

/-- The saturation computed by `rgbToHsl` on normalized channels in the
chromatic (`max !== min`) case:
`s = l > 0.5 ? d / (2 - max - min) : d / (max + min)`. -/
def hslSat (r g b : ℚ) : ℚ :=
  if hslLum r g b > 1/2 then
    (rgbMax r g b - rgbMin r g b) / (2 - rgbMax r g b - rgbMin r g b)
  else
    (rgbMax r g b - rgbMin r g b) / (rgbMax r g b + rgbMin r g b)

/-- The hue (scaled by 6) computed by `rgbToHsl` on normalized channels in
the chromatic case.  The JavaScript `switch (max)` matches `case r:` first,
then `case g:`, then `case b:`. -/
def hslHue6 (r g b : ℚ) : ℚ :=
  if rgbMax r g b = r then
    (g - b) / (rgbMax r g b - rgbMin r g b) + (if g < b then 6 else 0)
  else if rgbMax r g b = g then
    (b - r) / (rgbMax r g b - rgbMin r g b) + 2
  else
    (r - g) / (rgbMax r g b - rgbMin r g b) + 4

/-- `rgbToHsl(r, g, b)`: channels in 0..255, result `(h, s, l)` each
normalized.  The achromatic branch (`max === min`) returns `h = 0, s = 0`. -/
def rgbToHsl (r g b : ℚ) : ℚ × ℚ × ℚ :=
  if rgbMax (r/255) (g/255) (b/255) = rgbMin (r/255) (g/255) (b/255) then
    (0, 0, hslLum (r/255) (g/255) (b/255))
  else
    (hslHue6 (r/255) (g/255) (b/255) / 6,
     hslSat (r/255) (g/255) (b/255),
     hslLum (r/255) (g/255) (b/255))

/-- The wrapping prelude of the `hue2rgb` closure:
`if (t < 0) t += 1; if (t > 1) t -= 1;`. -/
def jsWrap (t : ℚ) : ℚ :=
  let t1 := if t < 0 then t + 1 else t
  if t1 > 1 then t1 - 1 else t1

/-- The piecewise body of the `hue2rgb` closure, applied after wrapping. -/
def hue2rgbBody (p q t : ℚ) : ℚ :=
  if t < 1/6 then p + (q - p) * 6 * t
  else if t < 1/2 then q
  else if t < 2/3 then p + (q - p) * (2/3 - t) * 6
  else p

/-- The `hue2rgb` closure of `hslToRgb`. -/
def hue2rgb (p q t : ℚ) : ℚ := hue2rgbBody p q (jsWrap t)

/-- The `q` value of `hslToRgb` in the chromatic case:
`q = l < 0.5 ? l * (1 + s) : l + s - l * s`. -/
def hslQ (s l : ℚ) : ℚ := if l < 1/2 then l * (1 + s) else l + s - l * s

/-- `hslToRgb(h, s, l)`: inputs normalized, result channels scaled by 255. -/
def hslToRgb (h s l : ℚ) : ℚ × ℚ × ℚ :=
  if s = 0 then (l * 255, l * 255, l * 255)
  else
    (hue2rgb (2 * l - hslQ s l) (hslQ s l) (h + 1/3) * 255,
     hue2rgb (2 * l - hslQ s l) (hslQ s l) h * 255,
     hue2rgb (2 * l - hslQ s l) (hslQ s l) (h - 1/3) * 255)

/-- The composite `hslToRgb(rgbToHsl(r, g, b))` of the round-trip claim. -/
def roundTripRgb (r g b : ℚ) : ℚ × ℚ × ℚ :=
  hslToRgb (rgbToHsl r g b).1 (rgbToHsl r g b).2.1 (rgbToHsl r g b).2.2

/-- One `{hue, saturation, luminance}` delta record of the color mixer. -/
structure ColorMixerChannel where
  hue : ℚ
  saturation : ℚ
  luminance : ℚ

/-- The six named bands of `EditSettings.colorMixer`. -/
structure ColorMixer where
  red : ColorMixerChannel
  orange : ColorMixerChannel
  yellow : ColorMixerChannel
  aqua : ColorMixerChannel
  blue : ColorMixerChannel
  magenta : ColorMixerChannel

/-- The `getWeight` closure of `getMixerAdjustment`: triangular weight with
angular distance wrapped at 360 degrees. -/
def getWeight (hDeg center width : ℚ) : ℚ :=
  let diff := |hDeg - center|
  let diff2 := if diff > 180 then 360 - diff else diff
  max 0 (1 - diff2 / width)

/-- `getMixerAdjustment(hue, mixer)`: per-band weighted deltas `{h, s, l}`.
The red weight is the sum `getWeight(0, 45) + getWeight(360, 45)` exactly as
in the source; each band contributes only when its weight is positive. -/
def getMixerAdjustment (hue : ℚ) (m : ColorMixer) : ℚ × ℚ × ℚ :=
  let hDeg := hue * 360
  let wRed := getWeight hDeg 0 45 + getWeight hDeg 360 45
  let wOrange := getWeight hDeg 30 30
  let wYellow := getWeight hDeg 60 35
  let wAqua := getWeight hDeg 180 50
  let wBlue := getWeight hDeg 240 50
  let wMagenta := getWeight hDeg 300 50
  ((if wRed > 0 then m.red.hue * wRed else 0) +
   (if wOrange > 0 then m.orange.hue * wOrange else 0) +
   (if wYellow > 0 then m.yellow.hue * wYellow else 0) +
   (if wAqua > 0 then m.aqua.hue * wAqua else 0) +
   (if wBlue > 0 then m.blue.hue * wBlue else 0) +
   (if wMagenta > 0 then m.magenta.hue * wMagenta else 0),
   (if wRed > 0 then m.red.saturation * wRed else 0) +
   (if wOrange > 0 then m.orange.saturation * wOrange else 0) +
   (if wYellow > 0 then m.yellow.saturation * wYellow else 0) +
   (if wAqua > 0 then m.aqua.saturation * wAqua else 0) +
   (if wBlue > 0 then m.blue.saturation * wBlue else 0) +
   (if wMagenta > 0 then m.magenta.saturation * wMagenta else 0),
   (if wRed > 0 then m.red.luminance * wRed else 0) +
   (if wOrange > 0 then m.orange.luminance * wOrange else 0) +
   (if wYellow > 0 then m.yellow.luminance * wYellow else 0) +
   (if wAqua > 0 then m.aqua.luminance * wAqua else 0) +
   (if wBlue > 0 then m.blue.luminance * wBlue else 0) +
   (if wMagenta > 0 then m.magenta.luminance * wMagenta else 0))

/-- The saturation update of the mixer application in `processImage`:
`s = clamp(s * (1 + adj.s / 100))` — note this is the 0..255 `clamp`. -/
def mixerApplyS (s ds : ℚ) : ℚ := clamp (s * (1 + ds / 100))

/-- The luminance update of the mixer application in `processImage`:
`l = clamp(l * (1 + adj.l / 100))` — note this is the 0..255 `clamp`. -/
def mixerApplyL (l dl : ℚ) : ℚ := clamp (l * (1 + dl / 100))

/-- Step 2 of the per-pixel loop in `processImage` (the global color mixer):
convert to HSL, and if any adjustment component is nonzero apply the deltas,
wrap the hue and convert back; otherwise leave the RGB untouched. -/
def mixerStage (m : ColorMixer) (r g b : ℚ) : ℚ × ℚ × ℚ :=
  let hsl := rgbToHsl (clamp r) (clamp g) (clamp b)
  let adj := getMixerAdjustment hsl.1 m
  if adj.1 ≠ 0 ∨ adj.2.1 ≠ 0 ∨ adj.2.2 ≠ 0 then
    let h0 := hsl.1 + adj.1 / 360
    let s0 := mixerApplyS hsl.2.1 adj.2.1
    let l0 := mixerApplyL hsl.2.2 adj.2.2
    let h1 := if h0 < 0 then h0 + 1 else h0
    let h2 := if h1 > 1 then h1 - 1 else h1
    hslToRgb h2 s0 l0
  else (r, g, b)

/-- The nine per-mask (and global) sliders of `LocalSettings`. -/
structure LocalSettings where
  exposure : ℚ
  contrast : ℚ
  highlights : ℚ
  shadows : ℚ
  texture : ℚ
  clarity : ℚ
  saturation : ℚ
  temperature : ℚ
  tint : ℚ

/-- The all-zero `LocalSettings` (`DEFAULT_LOCAL_SETTINGS`). -/
def zeroLocalSettings : LocalSettings := ⟨0, 0, 0, 0, 0, 0, 0, 0, 0⟩

/-- `applyAdjustments(r, g, b, settings)`: white balance, exposure, contrast,
shadows/highlights, clarity and saturation, in source order. -/
def applyAdjustments (J : JsMath) (r g b : ℚ) (s : LocalSettings) : ℚ × ℚ × ℚ :=
  let exposureMultiplier := J.pow2 (s.exposure / 50)
  let contrastFactor := (259 * (s.contrast + 255)) / (255 * (259 - s.contrast))
  let saturationFactor := 1 + s.saturation / 100
  let tempTintR := 1 + s.temperature / 100 + s.tint / 100
  let tempTintB := 1 - s.temperature / 100
  let tempTintG := 1 - s.tint / 200
  let r1 := r * tempTintR
  let g1 := g * tempTintG
  let b1 := b * tempTintB
  let r2 := r1 * exposureMultiplier
  let g2 := g1 * exposureMultiplier
  let b2 := b1 * exposureMultiplier
  let r3 := contrastFactor * (r2 - 128) + 128
  let g3 := contrastFactor * (g2 - 128) + 128
  let b3 := contrastFactor * (b2 - 128) + 128
  let luma := (0.299 * r3 + 0.587 * g3 + 0.114 * b3) / 255
  let shadowShift := if s.shadows ≠ 0 then s.shadows * (1 - luma) ^ 3 * 0.6 else 0
  let r4 := r3 + shadowShift
  let g4 := g3 + shadowShift
  let b4 := b3 + shadowShift
  let highlightShift := if s.highlights ≠ 0 then s.highlights * luma ^ 3 * 0.6 else 0
  let r5 := r4 + highlightShift
  let g5 := g4 + highlightShift
  let b5 := b4 + highlightShift
  let rgb6 :=
    if s.clarity ≠ 0 then
      let sigma : ℚ := if s.clarity < 0 then 0.5 else 0.2
      let midtoneMask := J.exp (-((luma - 0.5) ^ 2) / (2 * sigma * sigma))
      let clarityFactor := 1 + s.clarity / 150 * midtoneMask
      ((r5 - 128) * clarityFactor + 128,
       (g5 - 128) * clarityFactor + 128,
       (b5 - 128) * clarityFactor + 128)
    else (r5, g5, b5)
  let gray := 0.299 * rgb6.1 + 0.587 * rgb6.2.1 + 0.114 * rgb6.2.2
  (gray + (rgb6.1 - gray) * saturationFactor,
   gray + (rgb6.2.1 - gray) * saturationFactor,
   gray + (rgb6.2.2 - gray) * saturationFactor)

/-- The two values of `Mask.type` (a closed tag in the source). -/
inductive MaskType where
  | color : MaskType
  | linear : MaskType
deriving DecidableEq

/-- The fields of `Mask` read by the pipeline.  `targetColor` is the optional
HSL triple of a color mask, `rotation` the optional angle of a linear mask. -/
structure Mask where
  type : MaskType
  targetColor : Option (ℚ × ℚ × ℚ)
  colorRange : ℚ
  x : ℚ
  y : ℚ
  feather : ℚ
  rotation : Option ℚ
  invert : Bool
  opacity : ℚ
  settings : LocalSettings

/-- `const feather = Math.max(0.01, mask.feather / 100);` in
`calculateMaskAlpha`. -/
def maskFeather (m : Mask) : ℚ := max 0.01 (m.feather / 100)

/-- The linear-gradient branch of `calculateMaskAlpha`: signed distance of
the aspect-corrected offset from the mask center projected on the normal
`(sin θ, -cos θ)`, normalized by `f = Math.max(0.001, feather)` as
`0.5 - dist / f` and clamped to `[0, 1]`. -/
def linearAlpha (J : JsMath) (u v width height : ℚ) (m : Mask) : ℚ :=
  let angleRad := m.rotation.getD 0 * (J.pi / 180)
  let nx := J.sin angleRad
  let ny := -(J.cos angleRad)
  let aspect := width / height
  let dx := u - m.x
  let dy := (v - m.y) * aspect
  let dist := dx * nx + dy * ny
  let f := max 0.001 (maskFeather m)
  max 0 (min 1 (0.5 - dist / f))

/-- The color branch of `calculateMaskAlpha`.  When the mask has no target
color or no sample HSL was passed, the alpha stays at its initial 0. -/
def colorAlpha (m : Mask) (hsl : Option (ℚ × ℚ × ℚ)) : ℚ :=
  match m.targetColor, hsl with
  | some tc, some sample =>
    let hueDiff := |sample.1 - tc.1|
    let diff := min hueDiff (1 - hueDiff)
    let range := m.colorRange / 100
    let a0 : ℚ :=
      if diff < range then 1
      else if diff < range + 0.1 then 1 - (diff - range) / 0.1
      else 0
    if tc.2.1 > 0.1 then
      let satDiff := |sample.2.1 - tc.2.1|
      if satDiff > 0.3 then a0 * max 0 (1 - (satDiff - 0.3) * 5) else a0
    else a0
  | _, _ => 0

/-- The alpha computed by `calculateMaskAlpha` before the final
invert/opacity steps. -/
def preMaskAlpha (J : JsMath) (u v width height : ℚ) (m : Mask)
    (hsl : Option (ℚ × ℚ × ℚ)) : ℚ :=
  match m.type with
  | MaskType.linear => linearAlpha J u v width height m
  | MaskType.color => colorAlpha m hsl

/-- `calculateMaskAlpha(u, v, width, height, mask, hsl?)`: branch alpha, then
`if (mask.invert) alpha = 1 - alpha; return alpha * (mask.opacity / 100);`. -/
def calculateMaskAlpha (J : JsMath) (u v width height : ℚ) (m : Mask)
    (hsl : Option (ℚ × ℚ × ℚ)) : ℚ :=
  let a := preMaskAlpha J u v width height m hsl
  (if m.invert then 1 - a else a) * (m.opacity / 100)

/-- `Math.round` on a rational: JavaScript rounds half toward +∞. -/
def jsRound (q : ℚ) : ℤ := ⌊q + 1/2⌋

/-- The LUT resource: lattice edge length and flat data array. -/
structure Lut where
  size : ℕ
  data : List ℚ

/-- The flat LUT index computed in step 4 of `processImage`:
`(ri + gi*size + bi*size*size) * 3` with `ci = Math.round(clamp(c)/255 *
(size-1))`. -/
def lutIdx (L : Lut) (r g b : ℚ) : ℤ :=
  let n1 : ℤ := (L.size : ℤ) - 1
  let ri := jsRound (clamp r / 255 * (n1 : ℚ))
  let gi := jsRound (clamp g / 255 * (n1 : ℚ))
  let bi := jsRound (clamp b / 255 * (n1 : ℚ))
  (ri + gi * (L.size : ℤ) + bi * ((L.size : ℤ) * (L.size : ℤ))) * 3

/-- Step 4 of the per-pixel loop (the LUT blend): guarded by
`idx < data.length - 2`; otherwise the pixel passes through unchanged.  The
reads use `getD _ 0`; JavaScript would yield `undefined`/`NaN` for an
out-of-range index, so theorems below use only the index/guard relationship
and the skip branch, never an out-of-range value. -/
def lutStage (L : Lut) (li : ℚ) (r g b : ℚ) : ℚ × ℚ × ℚ :=
  let idx := lutIdx L r g b
  if idx < (L.data.length : ℤ) - 2 then
    (r * (1 - li) + L.data.getD idx.toNat 0 * 255 * li,
     g * (1 - li) + L.data.getD (idx + 1).toNat 0 * 255 * li,
     b * (1 - li) + L.data.getD (idx + 2).toNat 0 * 255 * li)
  else (r, g, b)

/-- The normalized crop rectangle of `EditSettings.crop`. -/
structure Crop where
  x : ℚ
  y : ℚ
  width : ℚ
  height : ℚ

/-- The fields of `EditSettings` read by `processImage` (the `lutId` and the
legacy `skin*` fields are not read by the pipeline and are omitted). -/
structure EditSettings where
  temperature : ℚ
  tint : ℚ
  exposure : ℚ
  contrast : ℚ
  highlights : ℚ
  shadows : ℚ
  texture : ℚ
  clarity : ℚ
  saturation : ℚ
  colorMixer : ColorMixer
  lutIntensity : ℚ
  masks : List Mask
  crop : Option Crop
  isMirrored : Bool

/-- The `globalLocalSettings` record built at the top of `processImage`. -/
def globalLocalSettings (s : EditSettings) : LocalSettings :=
  ⟨s.exposure, s.contrast, s.highlights, s.shadows, s.texture, s.clarity,
   s.saturation, s.temperature, s.tint⟩

/-- The coordinate-space remap of step 3 of `processImage`: mirroring first
(`u = 1 - u`), then the crop remap
(`u = crop.x + u * crop.width; v = crop.y + v * crop.height`). -/
def remapUV (isMirrored : Bool) (crop : Option Crop) (u v : ℚ) : ℚ × ℚ :=
  let u1 := if isMirrored then 1 - u else u
  match crop with
  | some c => (c.x + u1 * c.width, c.y + v * c.height)
  | none => (u1, v)

/-- The mask loop of step 3 of `processImage`: fold over the mask sequence,
skipping zero-opacity masks, sampling the original pixel's HSL for color
masks, and blending the mask-adjusted RGB in with weight alpha when
`alpha > 0`. -/
def applyMasks (J : JsMath) (masks : List Mask) (u v width height : ℚ)
    (oR oG oB : ℚ) (rgb : ℚ × ℚ × ℚ) : ℚ × ℚ × ℚ :=
  masks.foldl (fun acc m =>
    if m.opacity = 0 then acc
    else
      let maskHsl := if m.type = MaskType.color then some (rgbToHsl oR oG oB) else none
      let alpha := calculateMaskAlpha J u v width height m maskHsl
      if alpha > 0 then
        let t := applyAdjustments J acc.1 acc.2.1 acc.2.2 m.settings
        (acc.1 * (1 - alpha) + t.1 * alpha,
         acc.2.1 * (1 - alpha) + t.2.1 * alpha,
         acc.2.2 * (1 - alpha) + t.2.2 * alpha)
      else acc) rgb

/-- The per-pixel RGB computation of the main loop of `processImage`
(steps 1-4) for the pixel with linear index `p = i / 4`. -/
def processPixel (J : JsMath) (data : List ℚ) (width height : ℕ)
    (s : EditSettings) (lut : Option Lut) (p : ℕ) : ℚ × ℚ × ℚ :=
  let oR := data.getD (4 * p) 0
  let oG := data.getD (4 * p + 1) 0
  let oB := data.getD (4 * p + 2) 0
  let a1 := applyAdjustments J oR oG oB (globalLocalSettings s)
  let a2 := mixerStage s.colorMixer a1.1 a1.2.1 a1.2.2
  let a3 :=
    if 0 < s.masks.length then
      let x := p % width
      let y := p / width
      let uv := remapUV s.isMirrored s.crop ((x : ℚ) / (width : ℚ)) ((y : ℚ) / (height : ℚ))
      applyMasks J s.masks uv.1 uv.2 (width : ℚ) (height : ℚ) oR oG oB a2
    else a2
  match lut with
  | some L => if s.lutIntensity > 0 then lutStage L (s.lutIntensity / 100) a3.1 a3.2.1 a3.2.2 else a3
  | none => a3

/-- The value of the output buffer at flat index `j` after the main loop of
`processImage`: the alpha component (`j % 4 = 3`) is the untouched copy of
the input, the RGB components are the clamped per-pixel results. -/
def mainPassValue (J : JsMath) (data : List ℚ) (width height : ℕ)
    (s : EditSettings) (lut : Option Lut) (j : ℕ) : ℚ :=
  if j % 4 = 3 then data.getD j 0
  else
    let rgb := processPixel J data width height s lut (j / 4)
    if j % 4 = 0 then clamp rgb.1
    else if j % 4 = 1 then clamp rgb.2.1
    else clamp rgb.2.2

/-- One 3x3 texture-filter output component, reading the 9-neighborhood from
the snapshot `buf` (the post-main-loop buffer), exactly as the texture loop
of `processImage` does for an interior pixel `(x, y)` and channel `c < 3`. -/
def textureAt (buf : ℕ → ℚ) (width : ℕ) (amount : ℚ) (x y c : ℕ) : ℚ :=
  let center := buf ((y * width + x) * 4 + c)
  let avg := (buf (((y - 1) * width + x - 1) * 4 + c) +
              buf (((y - 1) * width + x) * 4 + c) +
              buf (((y - 1) * width + x + 1) * 4 + c) +
              buf ((y * width + x - 1) * 4 + c) +
              buf ((y * width + x + 1) * 4 + c) +
              buf (((y + 1) * width + x - 1) * 4 + c) +
              buf (((y + 1) * width + x) * 4 + c) +
              buf (((y + 1) * width + x + 1) * 4 + c) +
              center) / 9
  let finalAmount := if amount > 0 then amount * 0.5 else amount
  clamp (center + (center - avg) * finalAmount)

/-- The value of the final output buffer of `processImage` at flat index `j`:
the main-loop value, overwritten by the texture filter on interior RGB
components when `settings.texture ≠ 0`. -/
def outputValue (J : JsMath) (data : List ℚ) (width height : ℕ)
    (s : EditSettings) (lut : Option Lut) (j : ℕ) : ℚ :=
  if s.texture ≠ 0 then
    let p := j / 4
    let c := j % 4
    let x := p % width
    let y := p / width
    if c < 3 ∧ 1 ≤ x ∧ x + 1 < width ∧ 1 ≤ y ∧ y + 1 < height then
      textureAt (mainPassValue J data width height s lut) width (s.texture / 100) x y c
    else mainPassValue J data width height s lut j
  else mainPassValue J data width height s lut j

/-- `processImage(imageData, settings, activeLut)`: a new buffer of the same
length whose entries are the per-index output values. -/
def processImage (J : JsMath) (data : List ℚ) (width height : ℕ)
    (s : EditSettings) (lut : Option Lut) : List ℚ :=
  (List.range data.length).map (outputValue J data width height s lut)

/-- A concrete instantiation of the `JsMath` primitives used by witnesses and
counterexamples.  It agrees with the JavaScript `Math` object at every point
where a concrete theorem below evaluates it: `Math.pow(2, 0) = 1`,
`Math.sin(0) = 0` and `Math.cos(0) = 1` hold exactly in IEEE arithmetic. -/
def jsMathOne : JsMath := ⟨fun _ => 1, fun _ => 1, fun _ => 0, fun _ => 1, 0⟩

/-- The all-zero color mixer (`DEFAULT_MIXER_CHANNEL` in every band). -/
def zeroMixer : ColorMixer :=
  ⟨⟨0, 0, 0⟩, ⟨0, 0, 0⟩, ⟨0, 0, 0⟩, ⟨0, 0, 0⟩, ⟨0, 0, 0⟩, ⟨0, 0, 0⟩⟩

/-- A mixer whose only nonzero delta is the red band's saturation `d`. -/
def redSatMixer (d : ℚ) : ColorMixer :=
  ⟨⟨0, d, 0⟩, ⟨0, 0, 0⟩, ⟨0, 0, 0⟩, ⟨0, 0, 0⟩, ⟨0, 0, 0⟩, ⟨0, 0, 0⟩⟩

/-- The color-mixer adjustment exactly as the claim words it: a sum over the
six bands of the band's deltas times a single triangular weight
`max(0, 1 - angularDistance(hueDeg, center)/width)`, with band centers/widths
red `{0, 45}`, orange `{30, 30}`, yellow `{60, 35}`, aqua `{180, 50}`,
blue `{240, 50}`, magenta `{300, 50}`.  Kept separate from the source
function `getMixerAdjustment` for comparison. -/
def claimMixerAdjustment (hue : ℚ) (m : ColorMixer) : ℚ × ℚ × ℚ :=
  let hDeg := hue * 360
  (m.red.hue * getWeight hDeg 0 45 + m.orange.hue * getWeight hDeg 30 30 +
   m.yellow.hue * getWeight hDeg 60 35 + m.aqua.hue * getWeight hDeg 180 50 +
   m.blue.hue * getWeight hDeg 240 50 + m.magenta.hue * getWeight hDeg 300 50,
   m.red.saturation * getWeight hDeg 0 45 + m.orange.saturation * getWeight hDeg 30 30 +
   m.yellow.saturation * getWeight hDeg 60 35 + m.aqua.saturation * getWeight hDeg 180 50 +
   m.blue.saturation * getWeight hDeg 240 50 + m.magenta.saturation * getWeight hDeg 300 50,
   m.red.luminance * getWeight hDeg 0 45 + m.orange.luminance * getWeight hDeg 30 30 +
   m.yellow.luminance * getWeight hDeg 60 35 + m.aqua.luminance * getWeight hDeg 180 50 +
   m.blue.luminance * getWeight hDeg 240 50 + m.magenta.luminance * getWeight hDeg 300 50)

/-- The linear-mask alpha exactly as the claim words it: the same projection
as `linearAlpha` but with the feather divisor `f = max(0.001, feather/100)`.
Kept separate from the source computation for comparison. -/
def claimLinearAlpha (J : JsMath) (u v width height : ℚ) (m : Mask) : ℚ :=
  let angleRad := m.rotation.getD 0 * (J.pi / 180)
  let nx := J.sin angleRad
  let ny := -(J.cos angleRad)
  let aspect := width / height
  let dx := u - m.x
  let dy := (v - m.y) * aspect
  let dist := dx * nx + dy * ny
  let f := max 0.001 (m.feather / 100)
  max 0 (min 1 (0.5 - dist / f))

/-- A concrete linear mask with feather 0.5, rotation 0, center (0.5, 0.5),
no invert, full opacity. -/
def cexMask : Mask :=
  ⟨MaskType.linear, none, 0, 1/2, 1/2, 1/2, some 0, false, 100, zeroLocalSettings⟩

/-- A degenerate LUT with lattice size 0 and a 2-entry data array. -/
def cexLut : Lut := ⟨0, [0, 0]⟩

/-- The default `EditSettings`: every slider zero, zero mixer, no LUT
intensity, no masks, no crop, not mirrored. -/
def zeroEditSettings : EditSettings :=
  ⟨0, 0, 0, 0, 0, 0, 0, 0, 0, zeroMixer, 0, [], none, false⟩

lemma clamp_nonneg (v : ℚ) : 0 ≤ clamp v := le_max_left 0 _

lemma clamp_le_255 (v : ℚ) : clamp v ≤ 255 := max_le (by norm_num) (min_le_left _ _)

lemma getWeight_nonneg (hDeg c w : ℚ) : 0 ≤ getWeight hDeg c w := le_max_left 0 _

lemma ite_mul_of_nonneg {w : ℚ} (hw : 0 ≤ w) (x : ℚ) :
    (if w > 0 then x * w else 0) = x * w := by
  rcases hw.lt_or_eq with h | h
  · rw [if_pos h]
  · rw [if_neg (not_lt.2 h.ge), ← h, mul_zero]

/-- `getMixerAdjustment` with the positivity guards removed: each band
contributes its delta times its weight, red with the two-center weight. -/
lemma getMixerAdjustment_eq (hue : ℚ) (m : ColorMixer) :
    getMixerAdjustment hue m =
      (m.red.hue * (getWeight (hue * 360) 0 45 + getWeight (hue * 360) 360 45) +
         m.orange.hue * getWeight (hue * 360) 30 30 +
         m.yellow.hue * getWeight (hue * 360) 60 35 +
         m.aqua.hue * getWeight (hue * 360) 180 50 +
         m.blue.hue * getWeight (hue * 360) 240 50 +
         m.magenta.hue * getWeight (hue * 360) 300 50,
       m.red.saturation * (getWeight (hue * 360) 0 45 + getWeight (hue * 360) 360 45) +
         m.orange.saturation * getWeight (hue * 360) 30 30 +
         m.yellow.saturation * getWeight (hue * 360) 60 35 +
         m.aqua.saturation * getWeight (hue * 360) 180 50 +
         m.blue.saturation * getWeight (hue * 360) 240 50 +
         m.magenta.saturation * getWeight (hue * 360) 300 50,
       m.red.luminance * (getWeight (hue * 360) 0 45 + getWeight (hue * 360) 360 45) +
         m.orange.luminance * getWeight (hue * 360) 30 30 +
         m.yellow.luminance * getWeight (hue * 360) 60 35 +
         m.aqua.luminance * getWeight (hue * 360) 180 50 +
         m.blue.luminance * getWeight (hue * 360) 240 50 +
         m.magenta.luminance * getWeight (hue * 360) 300 50) := by
  have h1 : 0 ≤ getWeight (hue * 360) 0 45 + getWeight (hue * 360) 360 45 :=
    add_nonneg (getWeight_nonneg _ _ _) (getWeight_nonneg _ _ _)
  simp only [getMixerAdjustment, ite_mul_of_nonneg h1,
    ite_mul_of_nonneg (getWeight_nonneg (hue * 360) 30 30),
    ite_mul_of_nonneg (getWeight_nonneg (hue * 360) 60 35),
    ite_mul_of_nonneg (getWeight_nonneg (hue * 360) 180 50),
    ite_mul_of_nonneg (getWeight_nonneg (hue * 360) 240 50),
    ite_mul_of_nonneg (getWeight_nonneg (hue * 360) 300 50)]

lemma getMixerAdjustment_zero (hue : ℚ) : getMixerAdjustment hue zeroMixer = (0, 0, 0) := by
  simp [getMixerAdjustment, zeroMixer]

/-- C10: with the all-zero color mixer, `getMixerAdjustment` returns the zero
delta for every hue, so the mixer stage of `processImage` takes the skip
branch and leaves the RGB triple exactly unchanged: the HSL round trip is
never applied. -/
theorem mixerStage_zero_identity :
    (∀ hue : ℚ, getMixerAdjustment hue zeroMixer = (0, 0, 0)) ∧
    ∀ r g b : ℚ, mixerStage zeroMixer r g b = (r, g, b) := by
  refine ⟨getMixerAdjustment_zero, fun r g b => ?_⟩
  simp [mixerStage, getMixerAdjustment_zero]

/-- C2 counterexample: at hue 0 with only the red band's saturation delta set
to 10, the source `getMixerAdjustment` yields `ds = 20`, not the `ds = 10`
the claim's six-band single-weight formula (`claimMixerAdjustment`) gives:
the red band is counted at both centers 0 and 360, and the 360-wrapped
angular distance makes the two triangular weights coincide. -/
theorem getMixerAdjustment_red_cex :
    getMixerAdjustment 0 (redSatMixer 10) = (0, 20, 0) ∧
    claimMixerAdjustment 0 (redSatMixer 10) = (0, 10, 0) ∧
    getMixerAdjustment 0 (redSatMixer 10) ≠ claimMixerAdjustment 0 (redSatMixer 10) := by
  refine ⟨?_, ?_, ?_⟩ <;>
    norm_num [getMixerAdjustment, claimMixerAdjustment, redSatMixer, getWeight, Prod.ext_iff]

/-- C2 (amended): the ColorMixer adjustment is the sum over the bands of the
band's deltas times the triangular weight `max(0, 1 - angularDistance/width)`
with distance wrapped at 360 degrees, except that the red band's weight is
the SUM of the two triangular weights centered at 0 and at 360 (each width
45), which coincide after wrapping; in particular, for hue exactly 0 with
only the red band's saturation delta set to `d`, the total `ds` equals `2*d`
(the red band's weight at hue 0 is 2, not 1). -/
theorem getMixerAdjustment_bands :
    (∀ (hue : ℚ) (m : ColorMixer), getMixerAdjustment hue m =
      (m.red.hue * (getWeight (hue * 360) 0 45 + getWeight (hue * 360) 360 45) +
         m.orange.hue * getWeight (hue * 360) 30 30 +
         m.yellow.hue * getWeight (hue * 360) 60 35 +
         m.aqua.hue * getWeight (hue * 360) 180 50 +
         m.blue.hue * getWeight (hue * 360) 240 50 +
         m.magenta.hue * getWeight (hue * 360) 300 50,
       m.red.saturation * (getWeight (hue * 360) 0 45 + getWeight (hue * 360) 360 45) +
         m.orange.saturation * getWeight (hue * 360) 30 30 +
         m.yellow.saturation * getWeight (hue * 360) 60 35 +
         m.aqua.saturation * getWeight (hue * 360) 180 50 +
         m.blue.saturation * getWeight (hue * 360) 240 50 +
         m.magenta.saturation * getWeight (hue * 360) 300 50,
       m.red.luminance * (getWeight (hue * 360) 0 45 + getWeight (hue * 360) 360 45) +
         m.orange.luminance * getWeight (hue * 360) 30 30 +
         m.yellow.luminance * getWeight (hue * 360) 60 35 +
         m.aqua.luminance * getWeight (hue * 360) 180 50 +
         m.blue.luminance * getWeight (hue * 360) 240 50 +
         m.magenta.luminance * getWeight (hue * 360) 300 50)) ∧
    (∀ hDeg : ℚ, 0 ≤ hDeg → hDeg ≤ 360 → getWeight hDeg 360 45 = getWeight hDeg 0 45) ∧
    ∀ d : ℚ, (getMixerAdjustment 0 (redSatMixer d)).2.1 = 2 * d := by
  refine ⟨getMixerAdjustment_eq, fun hDeg h0 h1 => ?_, fun d => ?_⟩
  · simp only [getWeight, sub_zero]
    rw [abs_of_nonpos (by linarith), abs_of_nonneg h0]
    rcases lt_trichotomy hDeg 180 with h | h | h
    · rw [if_pos (by linarith), if_neg (by linarith)]
      ring_nf
    · rw [if_neg (by linarith), if_neg (by linarith)]
      rw [h]
      norm_num
    · rw [if_neg (by linarith), if_pos (by linarith)]
      ring_nf
  · rw [getMixerAdjustment_eq]
    norm_num [redSatMixer, getWeight]
    ring

/-- C1 (code bug): the mixer application clamps the adjusted saturation and
luminance with the 0..255 byte `clamp`, not to `[0, 1]`.  At the pure-red
pixel (255, 0, 0) with the red band's saturation delta +100, the HSL
saturation is 1 and the total `ds` is 200, so `s * (1 + ds/100) = 3 > 1`;
the value passed to `hslToRgb` is 3 (the byte clamp is a no-op here), not
the 1 the claim requires, and the stage output (510, -255, -255) differs
from the `hslToRgb(h, 1, l) = (255, 0, 0)` that clamping to 1 would give. -/
theorem mixerStage_saturation_clamp_code_bug :
    mixerApplyS 1 200 = 3 ∧
    (1 : ℚ) * (1 + 200 / 100) > 1 ∧
    mixerStage (redSatMixer 100) 255 0 0 = (510, -255, -255) ∧
    hslToRgb 0 1 (1/2) = (255, 0, 0) := by
  refine ⟨by norm_num [mixerApplyS, clamp], by norm_num, ?_, ?_⟩
  · norm_num [mixerStage, redSatMixer, rgbToHsl, rgbMax, rgbMin, hslHue6, hslSat, hslLum,
      getMixerAdjustment, getWeight, mixerApplyS, mixerApplyL, clamp, hslToRgb, hslQ, hue2rgb,
      jsWrap, hue2rgbBody, min_def, max_def]
  · norm_num [hslToRgb, hslQ, hue2rgb, jsWrap, hue2rgbBody]

/-- C4: the mask-coordinate remap applies mirroring before crop: with
`isMirrored = true` the local `u` is flipped to `1 - u` and only then the
crop remap `u = crop.x + u * crop.width; v = crop.y + v * crop.height` is
applied; in particular, with crop `{x: 0.25, y: 0, width: 0.5, height: 1}`,
the local coordinate (0, 0) maps to global (0.75, 0). -/
theorem remapUV_mirror_then_crop :
    (∀ (u v : ℚ) (c : Crop), remapUV true (some c) u v =
      (c.x + (1 - u) * c.width, c.y + v * c.height)) ∧
    (∀ (u v : ℚ) (c : Crop), remapUV false (some c) u v =
      (c.x + u * c.width, c.y + v * c.height)) ∧
    remapUV true (some ⟨1/4, 0, 1/2, 1⟩) 0 0 = (3/4, 0) := by
  refine ⟨fun u v c => ?_, fun u v c => ?_, ?_⟩ <;> norm_num [remapUV]

/-- C6: with the all-zero `LocalSettings`, `applyAdjustments` is the exact
identity on every RGB triple (given only `Math.pow(2, 0) = 1`): the white
balance, exposure and contrast factors are all exactly 1, the shadows,
highlights and clarity branches are skipped, and the saturation mix with
factor 1 returns each channel unchanged. -/
theorem applyAdjustments_zero_identity (J : JsMath) (hpow : J.pow2 0 = 1) (r g b : ℚ) :
    applyAdjustments J r g b zeroLocalSettings = (r, g, b) := by
  norm_num [applyAdjustments, zeroLocalSettings, hpow]

theorem applyAdjustments_zero_identity_witness :
    jsMathOne.pow2 0 = 1 ∧ applyAdjustments jsMathOne 7 11 13 zeroLocalSettings = (7, 11, 13) :=
  ⟨rfl, applyAdjustments_zero_identity jsMathOne rfl 7 11 13⟩

/-- C5 counterexample: for the degenerate LUT with `size = 0` and a 2-entry
data array, the pixel (255, 255, 255) yields the flat index -3
(`Math.round(1 * (0 - 1)) = -1` per channel), which passes the guard
`idx < data.length - 2` yet is not a valid read position: the stage neither
skips nor stays within the array. -/
theorem lutIdx_size_zero_cex :
    lutIdx cexLut 255 255 255 = -3 ∧
    lutIdx cexLut 255 255 255 < (cexLut.data.length : ℤ) - 2 ∧
    ¬ 0 ≤ lutIdx cexLut 255 255 255 := by
  have h : lutIdx cexLut 255 255 255 = -3 := by
    norm_num [lutIdx, cexLut, jsRound, clamp, min_def, max_def]
  refine ⟨h, ?_, ?_⟩ <;> rw [h] <;> norm_num [cexLut]

/-- C5 (amended): for every LUT with `size ≥ 1` and any data length, the
computed flat index is nonnegative and the guard `idx < data.length - 2`
implies all three read positions `idx, idx+1, idx+2` are within the data
array; when the guard fails the LUT stage returns the RGB unchanged. -/
theorem lutStage_bounds (L : Lut) (hL : 1 ≤ L.size) (li r g b : ℚ) :
    (lutIdx L r g b < (L.data.length : ℤ) - 2 →
      0 ≤ lutIdx L r g b ∧ lutIdx L r g b + 2 < (L.data.length : ℤ)) ∧
    (¬ lutIdx L r g b < (L.data.length : ℤ) - 2 → lutStage L li r g b = (r, g, b)) := by
  constructor
  · intro hguard
    have hN : (0 : ℤ) ≤ (L.size : ℤ) := Int.ofNat_nonneg _
    have h1q : (1 : ℚ) ≤ (L.size : ℚ) := by exact_mod_cast hL
    have hn1 : (0 : ℚ) ≤ (((L.size : ℤ) - 1 : ℤ) : ℚ) := by
      push_cast
      linarith
    have key : ∀ v : ℚ, 0 ≤ jsRound (clamp v / 255 * (((L.size : ℤ) - 1 : ℤ) : ℚ)) := by
      intro v
      have h0 : (0 : ℚ) ≤ clamp v / 255 * (((L.size : ℤ) - 1 : ℤ) : ℚ) :=
        mul_nonneg (div_nonneg (clamp_nonneg v) (by norm_num)) hn1
      refine Int.le_floor.2 ?_
      push_cast at h0 ⊢
      linarith
    have hidx : 0 ≤ lutIdx L r g b := by
      simp only [lutIdx]
      have h1 := key r
      have h2 := key g
      have h3 := key b
      positivity
    exact ⟨hidx, by omega⟩
  · intro h
    simp only [lutStage]
    rw [if_neg h]

theorem lutStage_bounds_witness :
    1 ≤ (Lut.mk 2 [0]).size ∧
    ((lutIdx (Lut.mk 2 [0]) 0 0 0 < (((Lut.mk 2 [0]).data.length : ℤ)) - 2 →
        0 ≤ lutIdx (Lut.mk 2 [0]) 0 0 0 ∧
        lutIdx (Lut.mk 2 [0]) 0 0 0 + 2 < ((Lut.mk 2 [0]).data.length : ℤ)) ∧
      (¬ lutIdx (Lut.mk 2 [0]) 0 0 0 < ((Lut.mk 2 [0]).data.length : ℤ) - 2 →
        lutStage (Lut.mk 2 [0]) 1 0 0 0 = (0, 0, 0))) :=
  ⟨by norm_num, lutStage_bounds (Lut.mk 2 [0]) (by norm_num) 1 0 0 0⟩

theorem getMixerAdjustment_bands_witness :
    ((0 : ℚ) ≤ 180 ∧ (180 : ℚ) ≤ 360) ∧ getWeight 180 360 45 = getWeight 180 0 45 :=
  ⟨⟨by norm_num, by norm_num⟩, getMixerAdjustment_bands.2.1 180 (by norm_num) (by norm_num)⟩

/-- C3 counterexample: the concrete linear mask `cexMask` has feather 0.5
(inside the claim's range `0.1 < feather < 1`), rotation 0, full opacity and
no invert.  At `(u, v) = (0.5, 0.502)` on a square image the source alpha is
0.7 (divisor `max(0.01, 0.005) = 0.01`), while the claim's formula
`claimLinearAlpha` with divisor `max(0.001, feather/100) = 0.005` gives
0.9. -/
theorem calculateMaskAlpha_feather_cex :
    (1/10 < cexMask.feather ∧ cexMask.feather < 1) ∧
    calculateMaskAlpha jsMathOne (1/2) (251/500) 1 1 cexMask none = 7/10 ∧
    claimLinearAlpha jsMathOne (1/2) (251/500) 1 1 cexMask = 9/10 ∧
    (7/10 : ℚ) ≠ 9/10 := by
  refine ⟨⟨by norm_num [cexMask], by norm_num [cexMask]⟩, ?_, ?_, by norm_num⟩
  · norm_num [calculateMaskAlpha, preMaskAlpha, cexMask, linearAlpha, maskFeather, jsMathOne,
      min_def, max_def]
  · norm_num [claimLinearAlpha, cexMask, jsMathOne, min_def, max_def]

/-- C3 (amended): for every linear mask, the pre-invert/opacity alpha at
`(u, v)` is the signed distance of the aspect-corrected offset from the mask
center projected on the normal `(sin θ, -cos θ)`, normalized by the feather
width `f = max(0.01, feather/100)` as `0.5 - dist/f` clamped to `[0, 1]`;
in particular, for every feather value with `0.1 < feather < 1` the divisor
used equals `0.01`, not `feather/100`. -/
theorem linearAlpha_feather_amended (J : JsMath) (u v width height : ℚ) (m : Mask)
    (hm : m.type = MaskType.linear) (hsl : Option (ℚ × ℚ × ℚ)) :
    preMaskAlpha J u v width height m hsl =
      max 0 (min 1 (1/2 -
        ((u - m.x) * J.sin (m.rotation.getD 0 * (J.pi / 180)) +
         (v - m.y) * (width / height) * (-(J.cos (m.rotation.getD 0 * (J.pi / 180))))) /
        max (1/100) (m.feather / 100))) ∧
    ∀ fe : ℚ, 1/10 < fe → fe < 1 → max (1/100 : ℚ) (fe / 100) = 1/100 := by
  constructor
  · have hmax : max 0.001 (maskFeather m) = max (1/100) (m.feather / 100) := by
      rw [maskFeather, max_eq_right (le_trans (by norm_num) (le_max_left (0.01 : ℚ) _))]
      norm_num
    simp only [preMaskAlpha, hm]
    simp only [linearAlpha, hmax]
    norm_num
  · intro fe h1 h2
    rw [max_eq_left (by linarith : fe / 100 ≤ 1/100)]

theorem linearAlpha_feather_amended_witness :
    cexMask.type = MaskType.linear ∧
    (preMaskAlpha jsMathOne (1/2) (251/500) 1 1 cexMask none =
      max 0 (min 1 (1/2 -
        ((1/2 - cexMask.x) * jsMathOne.sin (cexMask.rotation.getD 0 * (jsMathOne.pi / 180)) +
         (251/500 - cexMask.y) * ((1 : ℚ) / 1) *
           (-(jsMathOne.cos (cexMask.rotation.getD 0 * (jsMathOne.pi / 180))))) /
        max (1/100) (cexMask.feather / 100))) ∧
      ∀ fe : ℚ, 1/10 < fe → fe < 1 → max (1/100 : ℚ) (fe / 100) = 1/100) :=
  ⟨rfl, linearAlpha_feather_amended jsMathOne (1/2) (251/500) 1 1 cexMask rfl none⟩

lemma unit_mul_mem {a b : ℚ} (ha0 : 0 ≤ a) (ha1 : a ≤ 1) (hb0 : 0 ≤ b) (hb1 : b ≤ 1) :
    0 ≤ a * b ∧ a * b ≤ 1 :=
  ⟨mul_nonneg ha0 hb0, mul_le_one₀ ha1 hb0 hb1⟩

lemma linearAlpha_mem (J : JsMath) (u v width height : ℚ) (m : Mask) :
    0 ≤ linearAlpha J u v width height m ∧ linearAlpha J u v width height m ≤ 1 := by
  unfold linearAlpha
  exact ⟨le_max_left _ _, max_le (by norm_num) (min_le_left _ _)⟩

lemma colorAlpha_mem (m : Mask) (hsl : Option (ℚ × ℚ × ℚ)) :
    0 ≤ colorAlpha m hsl ∧ colorAlpha m hsl ≤ 1 := by
  unfold colorAlpha
  rcases m.targetColor with _ | tc
  · rcases hsl with _ | sample <;> norm_num
  · rcases hsl with _ | sample
    · norm_num
    · simp only
      set D := min |sample.1 - tc.1| (1 - |sample.1 - tc.1|) with hD
      set R := m.colorRange / 100 with hR
      have hdiv : (D - R) / 0.1 = (D - R) * 10 := by
        rw [div_eq_mul_inv]
        norm_num
      set A := (if D < R then (1 : ℚ) else if D < R + 0.1 then 1 - (D - R) / 0.1 else 0) with hA
      have ha0 : 0 ≤ A ∧ A ≤ 1 := by
        rw [hA]
        split_ifs with h1 h2
        · norm_num
        · rw [hdiv]
          have hge := not_lt.1 h1
          constructor <;> nlinarith [h2, hge]
        · norm_num
      split_ifs with h1 h2
      · exact unit_mul_mem ha0.1 ha0.2 (le_max_left _ _)
          (max_le (by norm_num) (by nlinarith [h2]))
      · exact ha0
      · exact ha0

lemma preMaskAlpha_mem (J : JsMath) (u v width height : ℚ) (m : Mask)
    (hsl : Option (ℚ × ℚ × ℚ)) :
    0 ≤ preMaskAlpha J u v width height m hsl ∧ preMaskAlpha J u v width height m hsl ≤ 1 := by
  unfold preMaskAlpha
  cases m.type
  · exact colorAlpha_mem m hsl
  · exact linearAlpha_mem J u v width height m

/-- C8: for every mask with opacity, feather and colorRange in `[0, 100]`
and every coordinate and optional sample HSL, the pre-invert alpha is in
`[0, 1]`, `calculateMaskAlpha` equals that alpha (inverted to `1 - alpha`
when `invert` is set) multiplied by `opacity/100`, and the returned value is
in `[0, 1]`. -/
theorem calculateMaskAlpha_range (J : JsMath) (u v width height : ℚ) (m : Mask)
    (hsl : Option (ℚ × ℚ × ℚ)) (hop0 : 0 ≤ m.opacity) (hop1 : m.opacity ≤ 100)
    (hf0 : 0 ≤ m.feather) (hf1 : m.feather ≤ 100)
    (hcr0 : 0 ≤ m.colorRange) (hcr1 : m.colorRange ≤ 100) :
    (0 ≤ preMaskAlpha J u v width height m hsl ∧
      preMaskAlpha J u v width height m hsl ≤ 1) ∧
    calculateMaskAlpha J u v width height m hsl =
      (if m.invert then 1 - preMaskAlpha J u v width height m hsl
       else preMaskAlpha J u v width height m hsl) * (m.opacity / 100) ∧
    0 ≤ calculateMaskAlpha J u v width height m hsl ∧
    calculateMaskAlpha J u v width height m hsl ≤ 1 := by
  obtain ⟨ha0, ha1⟩ := preMaskAlpha_mem J u v width height m hsl
  refine ⟨⟨ha0, ha1⟩, rfl, ?_⟩
  have hinv0 : 0 ≤ (if m.invert then 1 - preMaskAlpha J u v width height m hsl
      else preMaskAlpha J u v width height m hsl) := by
    split_ifs <;> linarith
  have hinv1 : (if m.invert then 1 - preMaskAlpha J u v width height m hsl
      else preMaskAlpha J u v width height m hsl) ≤ 1 := by
    split_ifs <;> linarith
  have := unit_mul_mem hinv0 hinv1 (by linarith : (0:ℚ) ≤ m.opacity / 100)
    (by linarith : m.opacity / 100 ≤ 1)
  exact this

theorem calculateMaskAlpha_range_witness :
    ((0 : ℚ) ≤ cexMask.opacity ∧ cexMask.opacity ≤ 100 ∧
     (0 : ℚ) ≤ cexMask.feather ∧ cexMask.feather ≤ 100 ∧
     (0 : ℚ) ≤ cexMask.colorRange ∧ cexMask.colorRange ≤ 100) ∧
    ((0 ≤ preMaskAlpha jsMathOne 0 0 1 1 cexMask none ∧
       preMaskAlpha jsMathOne 0 0 1 1 cexMask none ≤ 1) ∧
     calculateMaskAlpha jsMathOne 0 0 1 1 cexMask none =
       (if cexMask.invert then 1 - preMaskAlpha jsMathOne 0 0 1 1 cexMask none
        else preMaskAlpha jsMathOne 0 0 1 1 cexMask none) * (cexMask.opacity / 100) ∧
     0 ≤ calculateMaskAlpha jsMathOne 0 0 1 1 cexMask none ∧
     calculateMaskAlpha jsMathOne 0 0 1 1 cexMask none ≤ 1) :=
  ⟨by refine ⟨?_, ?_, ?_, ?_, ?_, ?_⟩ <;> norm_num [cexMask],
   calculateMaskAlpha_range jsMathOne 0 0 1 1 cexMask none (by norm_num [cexMask])
     (by norm_num [cexMask]) (by norm_num [cexMask]) (by norm_num [cexMask])
     (by norm_num [cexMask]) (by norm_num [cexMask])⟩

lemma processImage_getD (J : JsMath) (data : List ℚ) (width height : ℕ)
    (s : EditSettings) (lut : Option Lut) (j : ℕ) (hj : j < data.length) :
    (processImage J data width height s lut).getD j 0 = outputValue J data width height s lut j := by
  simp [processImage, List.getD_eq_getElem?_getD, List.getElem?_map, List.getElem?_range hj]

lemma mainPassValue_alpha (J : JsMath) (data : List ℚ) (width height : ℕ)
    (s : EditSettings) (lut : Option Lut) (j : ℕ) (hj : j % 4 = 3) :
    mainPassValue J data width height s lut j = data.getD j 0 := by
  simp [mainPassValue, hj]

lemma mainPassValue_rgb_mem (J : JsMath) (data : List ℚ) (width height : ℕ)
    (s : EditSettings) (lut : Option Lut) (j : ℕ) (hj : j % 4 ≠ 3) :
    0 ≤ mainPassValue J data width height s lut j ∧
    mainPassValue J data width height s lut j ≤ 255 := by
  simp only [mainPassValue]
  rw [if_neg hj]
  split_ifs <;> exact ⟨clamp_nonneg _, clamp_le_255 _⟩

lemma textureAt_mem (buf : ℕ → ℚ) (width : ℕ) (amount : ℚ) (x y c : ℕ) :
    0 ≤ textureAt buf width amount x y c ∧ textureAt buf width amount x y c ≤ 255 := by
  unfold textureAt
  exact ⟨clamp_nonneg _, clamp_le_255 _⟩

lemma outputValue_alpha (J : JsMath) (data : List ℚ) (width height : ℕ)
    (s : EditSettings) (lut : Option Lut) (j : ℕ) (hj : j % 4 = 3) :
    outputValue J data width height s lut j = data.getD j 0 := by
  simp only [outputValue]
  split_ifs with h1 h2
  · exact absurd h2.1 (by omega)
  · exact mainPassValue_alpha J data width height s lut j hj
  · exact mainPassValue_alpha J data width height s lut j hj

lemma outputValue_mem (J : JsMath) (data : List ℚ) (width height : ℕ)
    (s : EditSettings) (lut : Option Lut) (j : ℕ) (hj : j % 4 ≠ 3) :
    0 ≤ outputValue J data width height s lut j ∧
    outputValue J data width height s lut j ≤ 255 := by
  simp only [outputValue]
  split_ifs with h1 h2
  · exact textureAt_mem _ _ _ _ _ _
  · exact mainPassValue_rgb_mem J data width height s lut j hj
  · exact mainPassValue_rgb_mem J data width height s lut j hj

/-- C9: `processImage` returns a buffer of the same length as its input in
which every alpha component (flat index `j` with `j % 4 = 3`) equals the
input's component — no stage of the pipeline, including the texture pass,
writes the alpha channel — and every written RGB component is clamped to
`[0, 255]`. -/
theorem processImage_frame (J : JsMath) (data : List ℚ) (width height : ℕ)
    (s : EditSettings) (lut : Option Lut) :
    (processImage J data width height s lut).length = data.length ∧
    ∀ j : ℕ, j < data.length →
      (j % 4 = 3 → (processImage J data width height s lut).getD j 0 = data.getD j 0) ∧
      (j % 4 ≠ 3 → 0 ≤ (processImage J data width height s lut).getD j 0 ∧
        (processImage J data width height s lut).getD j 0 ≤ 255) := by
  refine ⟨by simp [processImage], fun j hj => ⟨fun h4 => ?_, fun h4 => ?_⟩⟩
  · rw [processImage_getD J data width height s lut j hj]
    exact outputValue_alpha J data width height s lut j h4
  · rw [processImage_getD J data width height s lut j hj]
    exact outputValue_mem J data width height s lut j h4

theorem processImage_frame_witness :
    (3 : ℕ) < ([10, 20, 30, 40] : List ℚ).length ∧
    ((3 % 4 = 3 →
        (processImage jsMathOne [10, 20, 30, 40] 1 1 zeroEditSettings none).getD 3 0 =
          ([10, 20, 30, 40] : List ℚ).getD 3 0) ∧
     (3 % 4 ≠ 3 →
        0 ≤ (processImage jsMathOne [10, 20, 30, 40] 1 1 zeroEditSettings none).getD 3 0 ∧
        (processImage jsMathOne [10, 20, 30, 40] 1 1 zeroEditSettings none).getD 3 0 ≤ 255)) :=
  ⟨by norm_num,
   (processImage_frame jsMathOne [10, 20, 30, 40] 1 1 zeroEditSettings none).2 3 (by norm_num)⟩

lemma jsWrap_of_mem (t : ℚ) (h0 : 0 ≤ t) (h1 : t ≤ 1) : jsWrap t = t := by
  simp only [jsWrap]
  rw [if_neg (not_lt.2 h0), if_neg (not_lt.2 h1)]

lemma jsWrap_of_neg (t : ℚ) (h : t < 0) : jsWrap t = t + 1 := by
  simp only [jsWrap]
  rw [if_pos h, if_neg (not_lt.2 (by linarith : t + 1 ≤ 1))]

lemma jsWrap_of_gt (t : ℚ) (h : 1 < t) : jsWrap t = t - 1 := by
  simp only [jsWrap]
  rw [if_neg (not_lt.2 (by linarith : (0 : ℚ) ≤ t)), if_pos h]

lemma hue2rgbBody_up (p q t : ℚ) (h0 : 0 ≤ t) (h1 : t ≤ 1/6) :
    hue2rgbBody p q t = p + (q - p) * 6 * t := by
  rcases lt_or_eq_of_le h1 with h | h
  · simp only [hue2rgbBody]
    rw [if_pos h]
  · simp only [hue2rgbBody]
    rw [if_neg (by rw [h]; exact lt_irrefl _), if_pos (by rw [h]; norm_num), h]
    ring

lemma hue2rgbBody_mid (p q t : ℚ) (h0 : 1/6 ≤ t) (h1 : t ≤ 1/2) : hue2rgbBody p q t = q := by
  rcases lt_or_eq_of_le h1 with h | h
  · simp only [hue2rgbBody]
    rw [if_neg (not_lt.2 h0), if_pos h]
  · simp only [hue2rgbBody]
    rw [if_neg (not_lt.2 h0), if_neg (by rw [h]; exact lt_irrefl _), if_pos (by rw [h]; norm_num),
      h]
    ring

lemma hue2rgbBody_down (p q t : ℚ) (h0 : 1/2 ≤ t) (h1 : t ≤ 2/3) :
    hue2rgbBody p q t = p + (q - p) * (2/3 - t) * 6 := by
  rcases lt_or_eq_of_le h1 with h | h
  · simp only [hue2rgbBody]
    rw [if_neg (by linarith), if_neg (not_lt.2 h0), if_pos h]
  · simp only [hue2rgbBody]
    rw [if_neg (by linarith), if_neg (not_lt.2 h0), if_neg (by rw [h]; exact lt_irrefl _), h]
    ring

lemma hue2rgbBody_low (p q t : ℚ) (h0 : 2/3 ≤ t) : hue2rgbBody p q t = p := by
  simp only [hue2rgbBody]
  rw [if_neg (by linarith), if_neg (by linarith), if_neg (not_lt.2 h0)]

lemma hue2rgb_up (p q t : ℚ) (h0 : 0 ≤ t) (h1 : t ≤ 1/6) :
    hue2rgb p q t = p + (q - p) * 6 * t := by
  rw [hue2rgb, jsWrap_of_mem t h0 (by linarith)]
  exact hue2rgbBody_up p q t h0 h1

lemma hue2rgb_mid (p q t : ℚ) (h0 : 1/6 ≤ t) (h1 : t ≤ 1/2) : hue2rgb p q t = q := by
  rw [hue2rgb, jsWrap_of_mem t (by linarith) (by linarith)]
  exact hue2rgbBody_mid p q t h0 h1

lemma hue2rgb_down (p q t : ℚ) (h0 : 1/2 ≤ t) (h1 : t ≤ 2/3) :
    hue2rgb p q t = p + (q - p) * (2/3 - t) * 6 := by
  rw [hue2rgb, jsWrap_of_mem t (by linarith) (by linarith)]
  exact hue2rgbBody_down p q t h0 h1

lemma hue2rgb_low (p q t : ℚ) (h0 : 2/3 ≤ t) (h1 : t ≤ 1) : hue2rgb p q t = p := by
  rw [hue2rgb, jsWrap_of_mem t (by linarith) h1]
  exact hue2rgbBody_low p q t h0

lemma hue2rgb_neg_low (p q t : ℚ) (h0 : -1/3 ≤ t) (h1 : t < 0) : hue2rgb p q t = p := by
  rw [hue2rgb, jsWrap_of_neg t h1]
  exact hue2rgbBody_low p q (t + 1) (by linarith)

lemma hue2rgb_wrap_mid (p q t : ℚ) (h0 : 7/6 ≤ t) (h1 : t ≤ 3/2) : hue2rgb p q t = q := by
  rw [hue2rgb, jsWrap_of_gt t (by linarith)]
  exact hue2rgbBody_mid p q (t - 1) (by linarith) (by linarith)

lemma hue2rgb_one_up (p q t : ℚ) (h0 : 1 ≤ t) (h1 : t ≤ 7/6) :
    hue2rgb p q t = p + (q - p) * 6 * (t - 1) := by
  rcases lt_or_eq_of_le h0 with h | h
  · rw [hue2rgb, jsWrap_of_gt t h]
    exact hue2rgbBody_up p q (t - 1) (by linarith) (by linarith)
  · subst h
    rw [hue2rgb, jsWrap_of_mem 1 (by norm_num) (by norm_num),
      hue2rgbBody_low p q 1 (by norm_num)]
    ring

lemma le_rgbMax_left (x y z : ℚ) : x ≤ rgbMax x y z := le_max_left _ _

lemma le_rgbMax_mid (x y z : ℚ) : y ≤ rgbMax x y z :=
  le_trans (le_max_left _ _) (le_max_right _ _)

lemma le_rgbMax_right (x y z : ℚ) : z ≤ rgbMax x y z :=
  le_trans (le_max_right _ _) (le_max_right _ _)

lemma rgbMin_le_left (x y z : ℚ) : rgbMin x y z ≤ x := min_le_left _ _

lemma rgbMin_le_mid (x y z : ℚ) : rgbMin x y z ≤ y :=
  le_trans (min_le_right _ _) (min_le_left _ _)

lemma rgbMin_le_right (x y z : ℚ) : rgbMin x y z ≤ z :=
  le_trans (min_le_right _ _) (min_le_right _ _)

lemma rgbMin_le_rgbMax (x y z : ℚ) : rgbMin x y z ≤ rgbMax x y z :=
  le_trans (rgbMin_le_left x y z) (le_rgbMax_left x y z)

lemma rgbMax_cases (x y z : ℚ) : rgbMax x y z = x ∨ rgbMax x y z = y ∨ rgbMax x y z = z := by
  rcases max_choice x (max y z) with h | h
  · exact Or.inl h
  · rcases max_choice y z with h2 | h2
    · exact Or.inr (Or.inl (by rw [rgbMax, h, h2]))
    · exact Or.inr (Or.inr (by rw [rgbMax, h, h2]))

lemma hslSat_pos (x y z : ℚ) (h0 : 0 ≤ rgbMin x y z) (h1 : rgbMax x y z ≤ 1)
    (hne : rgbMax x y z ≠ rgbMin x y z) : 0 < hslSat x y z := by
  have hlt : rgbMin x y z < rgbMax x y z :=
    lt_of_le_of_ne (rgbMin_le_rgbMax x y z) (Ne.symm hne)
  simp only [hslSat, hslLum]
  split_ifs with hl
  · have hm1 : rgbMin x y z < 1 := lt_of_lt_of_le hlt h1
    exact div_pos (by linarith) (by linarith)
  · exact div_pos (by linarith) (by linarith)

lemma hslQ_sat_eq_max (x y z : ℚ) (h0 : 0 ≤ rgbMin x y z) (h1 : rgbMax x y z ≤ 1)
    (hne : rgbMax x y z ≠ rgbMin x y z) :
    hslQ (hslSat x y z) (hslLum x y z) = rgbMax x y z := by
  have hlt : rgbMin x y z < rgbMax x y z :=
    lt_of_le_of_ne (rgbMin_le_rgbMax x y z) (Ne.symm hne)
  simp only [hslQ, hslSat, hslLum]
  set M := rgbMax x y z with hM
  set m := rgbMin x y z with hm
  rcases lt_trichotomy ((M + m) / 2) (1/2) with hl | hl | hl
  · rw [if_neg (not_lt.2 hl.le), if_pos hl]
    have hMm : (0 : ℚ) < M + m := by linarith
    field_simp
    ring
  · rw [if_neg (not_lt.2 hl.le), if_neg (not_lt.2 hl.ge)]
    have hsum : M + m = 1 := by linarith
    rw [hsum]
    norm_num
    linarith
  · rw [if_pos hl, if_neg (not_lt.2 hl.le)]
    have hm1 : m < 1 := lt_of_lt_of_le hlt h1
    have h2l : (0 : ℚ) < 2 - M - m := by linarith
    field_simp
    ring

lemma hslToRgb_rgbToHsl_chromatic (x y z : ℚ)
    (h0 : 0 ≤ rgbMin x y z) (h1 : rgbMax x y z ≤ 1) (hne : rgbMax x y z ≠ rgbMin x y z) :
    hslToRgb (hslHue6 x y z / 6) (hslSat x y z) (hslLum x y z) =
      (x * 255, y * 255, z * 255) := by
  have hlt : rgbMin x y z < rgbMax x y z :=
    lt_of_le_of_ne (rgbMin_le_rgbMax x y z) (Ne.symm hne)
  have hs := hslSat_pos x y z h0 h1 hne
  have hq := hslQ_sat_eq_max x y z h0 h1 hne
  have hp : 2 * hslLum x y z - rgbMax x y z = rgbMin x y z := by
    simp only [hslLum]
    ring
  simp only [hslToRgb]
  rw [if_neg hs.ne', hq, hp]
  by_cases hMx : rgbMax x y z = x
  · have hzx : z ≤ x := hMx ▸ le_rgbMax_right x y z
    have hyx : y ≤ x := hMx ▸ le_rgbMax_mid x y z
    by_cases hyz : y < z
    · -- max = x, y < z: min = y, hue in [5/6, 1)
      have hmy : rgbMin x y z = y := by
        unfold rgbMin
        rw [min_eq_left hyz.le, min_eq_right (le_trans hyz.le hzx)]
      have hH : hslHue6 x y z = (y - z) / (x - y) + 6 := by
        simp only [hslHue6]
        rw [if_pos hMx, if_pos hyz, hMx, hmy]
      have hd : 0 < x - y := by
        rw [hMx, hmy] at hlt
        linarith
      have hdne : x - y ≠ 0 := ne_of_gt hd
      have he1 : -(1 : ℚ) ≤ (y - z) / (x - y) := by
        rw [le_div_iff₀ hd]
        linarith
      have he0 : (y - z) / (x - y) < 0 := div_neg_of_neg_of_pos (by linarith) hd
      rw [hH, hmy, hMx]
      simp only [Prod.mk.injEq]
      refine ⟨?_, ?_, ?_⟩
      · rw [hue2rgb_wrap_mid y x _ (by linarith) (by linarith)]
      · rw [hue2rgb_low y x _ (by linarith) (by linarith)]
      · rw [hue2rgb_down y x _ (by linarith) (by linarith)]
        have hv : y + (x - y) * (2/3 - (((y - z) / (x - y) + 6) / 6 - 1/3)) * 6 = z := by
          field_simp
          ring
        rw [hv]
    · -- max = x, z ≤ y: min = z, hue in [0, 1/6]
      have hzy : z ≤ y := not_lt.1 hyz
      have hmz : rgbMin x y z = z := by
        unfold rgbMin
        rw [min_eq_right hzy, min_eq_right hzx]
      have hH : hslHue6 x y z = (y - z) / (x - z) := by
        simp only [hslHue6]
        rw [if_pos hMx, if_neg hyz, hMx, hmz, add_zero]
      have hd : 0 < x - z := by
        rw [hMx, hmz] at hlt
        linarith
      have hdne : x - z ≠ 0 := ne_of_gt hd
      have he0 : 0 ≤ (y - z) / (x - z) := div_nonneg (by linarith) hd.le
      have he1 : (y - z) / (x - z) ≤ 1 := by
        rw [div_le_one hd]
        linarith
      rw [hH, hmz, hMx]
      simp only [Prod.mk.injEq]
      refine ⟨?_, ?_, ?_⟩
      · rw [hue2rgb_mid z x _ (by linarith) (by linarith)]
      · rw [hue2rgb_up z x _ (by linarith) (by linarith)]
        have hv : z + (x - z) * 6 * ((y - z) / (x - z) / 6) = y := by
          field_simp
        rw [hv]
      · rw [hue2rgb_neg_low z x _ (by linarith) (by linarith)]
  · by_cases hMy : rgbMax x y z = y
    · have hxM : x ≤ y := hMy ▸ le_rgbMax_left x y z
      have hzM : z ≤ y := hMy ▸ le_rgbMax_right x y z
      have hxy : x < y := lt_of_le_of_ne hxM (fun h => hMx (by rw [hMy, ← h]))
      by_cases hxz : x ≤ z
      · -- max = y, x ≤ z: min = x, hue in [1/3, 1/2]
        have hmx : rgbMin x y z = x := by
          unfold rgbMin
          rw [min_eq_left (le_min hxM hxz)]
        have hH : hslHue6 x y z = (z - x) / (y - x) + 2 := by
          simp only [hslHue6]
          rw [if_neg hMx, if_pos hMy, hMy, hmx]
        have hd : 0 < y - x := by linarith
        have hdne : y - x ≠ 0 := ne_of_gt hd
        have he0 : 0 ≤ (z - x) / (y - x) := div_nonneg (by linarith) hd.le
        have he1 : (z - x) / (y - x) ≤ 1 := by
          rw [div_le_one hd]
          linarith
        rw [hH, hmx, hMy]
        simp only [Prod.mk.injEq]
        refine ⟨?_, ?_, ?_⟩
        · rw [hue2rgb_low x y _ (by linarith) (by linarith)]
        · rw [hue2rgb_mid x y _ (by linarith) (by linarith)]
        · rw [hue2rgb_up x y _ (by linarith) (by linarith)]
          have hv : x + (y - x) * 6 * (((z - x) / (y - x) + 2) / 6 - 1/3) = z := by
            field_simp
            ring
          rw [hv]
      · -- max = y, z < x: min = z, hue in (1/6, 1/3)
        have hzx : z < x := not_le.1 hxz
        have hmz : rgbMin x y z = z := by
          unfold rgbMin
          rw [min_eq_right hzM, min_eq_right hzx.le]
        have hH : hslHue6 x y z = (z - x) / (y - z) + 2 := by
          simp only [hslHue6]
          rw [if_neg hMx, if_pos hMy, hMy, hmz]
        have hd : 0 < y - z := by
          rw [hMy, hmz] at hlt
          linarith
        have hdne : y - z ≠ 0 := ne_of_gt hd
        have he0 : (z - x) / (y - z) < 0 := div_neg_of_neg_of_pos (by linarith) hd
        have he1 : -(1 : ℚ) ≤ (z - x) / (y - z) := by
          rw [le_div_iff₀ hd]
          linarith
        rw [hH, hmz, hMy]
        simp only [Prod.mk.injEq]
        refine ⟨?_, ?_, ?_⟩
        · rw [hue2rgb_down z y _ (by linarith) (by linarith)]
          have hv : z + (y - z) * (2/3 - (((z - x) / (y - z) + 2) / 6 + 1/3)) * 6 = x := by
            field_simp
            ring
          rw [hv]
        · rw [hue2rgb_mid z y _ (by linarith) (by linarith)]
        · rw [hue2rgb_neg_low z y _ (by linarith) (by linarith)]
    · -- max = z
      have hMz : rgbMax x y z = z := ((rgbMax_cases x y z).resolve_left hMx).resolve_left hMy
      have hxM : x ≤ z := hMz ▸ le_rgbMax_left x y z
      have hyM : y ≤ z := hMz ▸ le_rgbMax_mid x y z
      have hxz : x < z := lt_of_le_of_ne hxM (fun h => hMx (by rw [hMz, ← h]))
      have hyz2 : y < z := lt_of_le_of_ne hyM (fun h => hMy (by rw [hMz, ← h]))
      by_cases hyx : y ≤ x
      · -- max = z, y ≤ x: min = y, hue in [2/3, 5/6)
        have hmy : rgbMin x y z = y := by
          unfold rgbMin
          rw [min_eq_left hyz2.le, min_eq_right hyx]
        have hH : hslHue6 x y z = (x - y) / (z - y) + 4 := by
          simp only [hslHue6]
          rw [if_neg hMx, if_neg hMy, hMz, hmy]
        have hd : 0 < z - y := by linarith
        have hdne : z - y ≠ 0 := ne_of_gt hd
        have he0 : 0 ≤ (x - y) / (z - y) := div_nonneg (by linarith) hd.le
        have he1 : (x - y) / (z - y) < 1 := by
          rw [div_lt_one hd]
          linarith
        rw [hH, hmy, hMz]
        simp only [Prod.mk.injEq]
        refine ⟨?_, ?_, ?_⟩
        · rw [hue2rgb_one_up y z _ (by linarith) (by linarith)]
          have hv : y + (z - y) * 6 * (((x - y) / (z - y) + 4) / 6 + 1/3 - 1) = x := by
            field_simp
            ring
          rw [hv]
        · rw [hue2rgb_low y z _ (by linarith) (by linarith)]
        · rw [hue2rgb_mid y z _ (by linarith) (by linarith)]
      · -- max = z, x < y: min = x, hue in (1/2, 2/3)
        have hxy2 : x < y := not_le.1 hyx
        have hmx : rgbMin x y z = x := by
          unfold rgbMin
          rw [min_eq_left (le_min hxy2.le hxz.le)]
        have hH : hslHue6 x y z = (x - y) / (z - x) + 4 := by
          simp only [hslHue6]
          rw [if_neg hMx, if_neg hMy, hMz, hmx]
        have hd : 0 < z - x := by linarith
        have hdne : z - x ≠ 0 := ne_of_gt hd
        have he0 : (x - y) / (z - x) < 0 := div_neg_of_neg_of_pos (by linarith) hd
        have he1 : -(1 : ℚ) ≤ (x - y) / (z - x) := by
          rw [le_div_iff₀ hd]
          linarith
        rw [hH, hmx, hMz]
        simp only [Prod.mk.injEq]
        refine ⟨?_, ?_, ?_⟩
        · rw [hue2rgb_low x z _ (by linarith) (by linarith)]
        · rw [hue2rgb_down x z _ (by linarith) (by linarith)]
          have hv : x + (z - x) * (2/3 - ((x - y) / (z - x) + 4) / 6) * 6 = y := by
            field_simp
            ring
          rw [hv]
        · rw [hue2rgb_mid x z _ (by linarith) (by linarith)]

/-- The HSL round trip is the exact identity on every triple of channels in
`[0, 255]` (in exact rational arithmetic). -/
lemma roundTripRgb_exact (r g b : ℚ) (h0r : 0 ≤ r) (h1r : r ≤ 255)
    (h0g : 0 ≤ g) (h1g : g ≤ 255) (h0b : 0 ≤ b) (h1b : b ≤ 255) :
    roundTripRgb r g b = (r, g, b) := by
  have hx0 : 0 ≤ r / 255 := div_nonneg h0r (by norm_num)
  have hy0 : 0 ≤ g / 255 := div_nonneg h0g (by norm_num)
  have hz0 : 0 ≤ b / 255 := div_nonneg h0b (by norm_num)
  have hx1 : r / 255 ≤ 1 := by
    rw [div_le_one (by norm_num : (0 : ℚ) < 255)]
    exact h1r
  have hy1 : g / 255 ≤ 1 := by
    rw [div_le_one (by norm_num : (0 : ℚ) < 255)]
    exact h1g
  have hz1 : b / 255 ≤ 1 := by
    rw [div_le_one (by norm_num : (0 : ℚ) < 255)]
    exact h1b
  unfold roundTripRgb
  by_cases hc : rgbMax (r/255) (g/255) (b/255) = rgbMin (r/255) (g/255) (b/255)
  · have hhsl : rgbToHsl r g b = (0, 0, hslLum (r/255) (g/255) (b/255)) := by
      unfold rgbToHsl
      rw [if_pos hc]
    have hmaxr : rgbMax (r/255) (g/255) (b/255) = r/255 :=
      le_antisymm (by rw [hc]; exact rgbMin_le_left _ _ _) (le_rgbMax_left _ _ _)
    have hmaxg : rgbMax (r/255) (g/255) (b/255) = g/255 :=
      le_antisymm (by rw [hc]; exact rgbMin_le_mid _ _ _) (le_rgbMax_mid _ _ _)
    have hmaxb : rgbMax (r/255) (g/255) (b/255) = b/255 :=
      le_antisymm (by rw [hc]; exact rgbMin_le_right _ _ _) (le_rgbMax_right _ _ _)
    have hminr : rgbMin (r/255) (g/255) (b/255) = r/255 := by rw [← hc, hmaxr]
    have hrg : r = g := by
      have h := hmaxr.symm.trans hmaxg
      linarith
    have hrb : r = b := by
      have h := hmaxr.symm.trans hmaxb
      linarith
    have hl : hslLum (r/255) (g/255) (b/255) = r/255 := by
      rw [hslLum, hmaxr, hminr]
      ring
    rw [hhsl]
    simp only
    unfold hslToRgb
    rw [if_pos rfl, hl]
    simp only [Prod.mk.injEq]
    refine ⟨by field_simp, by rw [← hrg]; field_simp, by rw [← hrb]; field_simp⟩
  · have hhsl : rgbToHsl r g b =
        (hslHue6 (r/255) (g/255) (b/255) / 6, hslSat (r/255) (g/255) (b/255),
         hslLum (r/255) (g/255) (b/255)) := by
      unfold rgbToHsl
      rw [if_neg hc]
    have hmin0 : 0 ≤ rgbMin (r/255) (g/255) (b/255) := by
      unfold rgbMin
      exact le_min hx0 (le_min hy0 hz0)
    have hmax1 : rgbMax (r/255) (g/255) (b/255) ≤ 1 := by
      unfold rgbMax
      exact max_le hx1 (max_le hy1 hz1)
    rw [hhsl]
    simp only
    rw [hslToRgb_rgbToHsl_chromatic (r/255) (g/255) (b/255) hmin0 hmax1 hc]
    simp only [Prod.mk.injEq]
    refine ⟨by field_simp, by field_simp, by field_simp⟩

/-- C7: for every valid RGB input (channels in 0..255),
`hslToRgb(rgbToHsl(x))` reproduces `x` within ±1/255 per channel (in the
exact-arithmetic model the round trip is in fact the exact identity), and
every achromatic input (r = g = b) maps to `h = 0` and `s = 0` (the
achromatic branch performs no division at all). -/
theorem rgbToHsl_hslToRgb_roundtrip (r g b : ℚ) (h0r : 0 ≤ r) (h1r : r ≤ 255)
    (h0g : 0 ≤ g) (h1g : g ≤ 255) (h0b : 0 ≤ b) (h1b : b ≤ 255) :
    (|(roundTripRgb r g b).1 - r| ≤ 1/255 ∧
     |(roundTripRgb r g b).2.1 - g| ≤ 1/255 ∧
     |(roundTripRgb r g b).2.2 - b| ≤ 1/255) ∧
    (r = g → g = b → (rgbToHsl r g b).1 = 0 ∧ (rgbToHsl r g b).2.1 = 0) := by
  have hrt := roundTripRgb_exact r g b h0r h1r h0g h1g h0b h1b
  constructor
  · rw [hrt]
    norm_num
  · intro hrg hgb
    subst hrg
    subst hgb
    have hc : rgbMax (r/255) (r/255) (r/255) = rgbMin (r/255) (r/255) (r/255) := by
      unfold rgbMax rgbMin
      rw [max_self, max_self, min_self, min_self]
    unfold rgbToHsl
    rw [if_pos hc]
    exact ⟨rfl, rfl⟩

theorem rgbToHsl_hslToRgb_roundtrip_witness :
    ((0 : ℚ) ≤ 128 ∧ (128 : ℚ) ≤ 255) ∧
    ((|(roundTripRgb 128 128 128).1 - 128| ≤ 1/255 ∧
      |(roundTripRgb 128 128 128).2.1 - 128| ≤ 1/255 ∧
      |(roundTripRgb 128 128 128).2.2 - 128| ≤ 1/255) ∧
     ((128 : ℚ) = 128 → (128 : ℚ) = 128 →
       (rgbToHsl 128 128 128).1 = 0 ∧ (rgbToHsl 128 128 128).2.1 = 0)) :=
  ⟨⟨by norm_num, by norm_num⟩,
   rgbToHsl_hslToRgb_roundtrip 128 128 128 (by norm_num) (by norm_num) (by norm_num)
     (by norm_num) (by norm_num) (by norm_num)⟩
